import Mathlib

/-!
Verification of the tool-invocation pipeline of an MCP server template
(registry, capability contract, invocation wrapper, dispatch, sample tools,
configuration validation), shallowly embedded from the TypeScript sources.

Conventions of the embedding:
* JavaScript `Map<string, V>` is modelled as an association list kept in
  insertion order, with `Map.set` / `Map.get` semantics (`assocSet`,
  `assocLookup`); `Map.prototype.values()` iterates in insertion order.
* Stateful methods of `ToolRegistry` become functions from registry state to
  registry state.
* Real time is passed explicitly: a method that reads the current clock takes
  the sampled instant (milliseconds since the Unix epoch, as `Nat`) as an
  argument.
* JavaScript numbers holding configuration sizes are modelled as `Int`
  (the source only compares them against 0).
-/

/-- JSON-like raw payloads crossing the dispatch boundary. -/
inductive Json where
  | str (s : String)
  | num (n : Int)
  | jbool (b : Bool)
  | jnull
  | obj (fields : List (String × Json))
deriving Repr

/-- Declarative input schema, from the Zod schemas declared by the tools:
`z.object({...})` with `z.string().describe(...)` leaves. -/
inductive SchemaNode where
  | sString (desc : String)
  | sObject (fields : List (String × SchemaNode))
deriving Repr

/-- Field names required by an object schema. -/
def SchemaNode.fieldNames : SchemaNode → List String
  | .sObject fields => fields.map Prod.fst
  | .sString _ => []

/-- Lookup in an insertion-ordered association list (`Map.prototype.get`:
returns `undefined`, i.e. `none`, when the key is absent). -/
def assocLookup {α : Type} : List (String × α) → String → Option α
  | [], _ => none
  | (k, v) :: rest, key => if k = key then some v else assocLookup rest key

/-- Update in an insertion-ordered association list (`Map.prototype.set`:
overwrites the value in place if the key exists, otherwise appends). -/
def assocSet {α : Type} : List (String × α) → String → α → List (String × α)
  | [], key, value => [(key, value)]
  | (k, v) :: rest, key, value =>
    if k = key then (k, value) :: rest else (k, v) :: assocSet rest key value

/-- `MCPToolResponse<T>` from `src/types/index.ts`: the normalized envelope. -/
structure MCPToolResponse (T : Type) where
  success : Bool
  message : String
  data : T
deriving Repr

/-- `ToolContext` from `base-tool.ts`: the shared dependency bag. In this
template it has no members (the source builds it as an empty object literal). -/
structure ToolContext

/-- `EchoArgs` from `src/tools/implementations/echo-tool.ts`. -/
structure EchoArgs where
  message : String
deriving Repr

/-- The `data` payload of a successful echo response. -/
structure EchoData where
  message : String
deriving Repr

/-- `EchoTool` from `src/tools/implementations/echo-tool.ts`: holds only the
injected context. -/
structure EchoTool where
  context : ToolContext

/-- `EchoTool.name`. -/
def EchoTool.name (_ : EchoTool) : String := "echo"

/-- `EchoTool.description`. -/
def EchoTool.description (_ : EchoTool) : String := "Echo back the input message"

/-- `EchoTool.getInputSchema`: `z.object({ message: z.string().describe(...) })`. -/
def EchoTool.getInputSchema (_ : EchoTool) : SchemaNode :=
  .sObject [("message", .sString "The message to echo back")]

/-- `EchoTool.execute` from `src/tools/implementations/echo-tool.ts`. -/
def EchoTool.execute (_ : EchoTool) (args : EchoArgs) : MCPToolResponse EchoData :=
  { success := true
    message := "Message echoed successfully"
    data := { message := args.message } }

/-- `PingArgs = Record<string, never>`: the empty argument object. -/
def PingArgs : Type := Unit

/-- The `data` payload of a ping response. -/
structure PingData where
  status : String
  timestamp : String
deriving Repr

/-- `PingTool` from `src/tools/implementations/ping-tool.ts`. -/
structure PingTool where
  context : ToolContext

/-- `PingTool.name`. -/
def PingTool.name (_ : PingTool) : String := "ping"

/-- `PingTool.description`. -/
def PingTool.description (_ : PingTool) : String := "Check if the server is responding"

/-- `PingTool.getInputSchema`: `z.object({})`. -/
def PingTool.getInputSchema (_ : PingTool) : SchemaNode := .sObject []

/-- Decimal digit character (used to render `Date.prototype.toISOString`). -/
def decDigit (n : Nat) : Char := Char.ofNat (48 + n % 10)

/-- Two-digit zero-padded decimal rendering, for values below 100. -/
def pad2 (n : Nat) : String := String.mk [decDigit (n / 10), decDigit n]

/-- Three-digit zero-padded decimal rendering, for values below 1000. -/
def pad3 (n : Nat) : String := String.mk [decDigit (n / 100), decDigit (n / 10), decDigit n]

/-- Four-digit zero-padded decimal rendering, for values below 10000. -/
def pad4 (n : Nat) : String :=
  String.mk [decDigit (n / 1000), decDigit (n / 100), decDigit (n / 10), decDigit n]

/-- Proleptic Gregorian civil date (year, month, day) from days since
1970-01-01, the standard era-based conversion used by `Date`. -/
def civilFromDays (days : Nat) : Nat × Nat × Nat :=
  let z := days + 719468
  let era := z / 146097
  let doe := z % 146097
  let yoe := (doe - doe / 1460 + doe / 36524 - doe / 146096) / 365
  let y := yoe + era * 400
  let doy := doe - (365 * yoe + yoe / 4 - yoe / 100)
  let mp := (5 * doy + 2) / 153
  let d := doy - (153 * mp + 2) / 5 + 1
  let m := if mp < 10 then mp + 3 else mp - 9
  (if m ≤ 2 then y + 1 else y, m, d)

/-- `Date.prototype.toISOString` on an instant given as milliseconds since the
Unix epoch: `YYYY-MM-DDTHH:MM:SS.sssZ`. (The model covers the four-digit-year
range of instants, which contains every instant a running server can sample.) -/
def toISOString (n : Nat) : String :=
  let ms := n % 1000
  let s := n / 1000
  let sec := s % 60
  let minute := s / 60 % 60
  let hour := s / 3600 % 24
  match civilFromDays (s / 86400) with
  | (y, m, d) =>
    pad4 y ++ "-" ++ pad2 m ++ "-" ++ pad2 d ++ "T" ++ pad2 hour ++ ":" ++
      pad2 minute ++ ":" ++ pad2 sec ++ "." ++ pad3 ms ++ "Z"

/-- `PingTool.execute` from `src/tools/implementations/ping-tool.ts`; `now` is
the instant sampled by `new Date()` during the call. -/
def PingTool.execute (_ : PingTool) (now : Nat) (_args : PingArgs) :
    MCPToolResponse PingData :=
  { success := true
    message := "Server is responding"
    data := { status := "ok", timestamp := toISOString now } }

/-- `type Tool = EchoTool | PingTool` from `src/server/tool-registry.ts`. -/
inductive Tool where
  | echoT (t : EchoTool)
  | pingT (t : PingTool)

/-- The `name` of a tool, dispatched over the union. -/
def Tool.name : Tool → String
  | .echoT t => t.name
  | .pingT t => t.name

/-- The input schema of a tool, dispatched over the union. -/
def Tool.getInputSchema : Tool → SchemaNode
  | .echoT t => t.getInputSchema
  | .pingT t => t.getInputSchema

/-- State of `ToolRegistry` from `src/server/tool-registry.ts`:
`registeredTools: string[]` and `toolInstances: Map<string, Tool>`. -/
structure ToolRegistry where
  registeredTools : List String
  toolInstances : List (String × Tool)

/-- A fresh `ToolRegistry` (both fields start empty). -/
def ToolRegistry.empty : ToolRegistry := ⟨[], []⟩

/-- The loop body of `ToolRegistry.initialize`:
`for (const tool of tools) this.toolInstances.set(tool.name, tool)`. -/
def registerList (m : List (String × Tool)) (tools : List Tool) :
    List (String × Tool) :=
  tools.foldl (fun acc tool => assocSet acc tool.name tool) m

/-- `ToolRegistry.initialize`: builds the fixed tool list
`[new EchoTool(context), new PingTool(context)]` and inserts each into
`toolInstances`; `registeredTools` is untouched. -/
def ToolRegistry.initRegistry (r : ToolRegistry) : ToolRegistry :=
  { r with toolInstances :=
      registerList r.toolInstances [Tool.echoT ⟨⟨⟩⟩, Tool.pingT ⟨⟨⟩⟩] }

/-- `ToolRegistry.getToolByName`: `this.toolInstances.get(name)`. -/
def ToolRegistry.getToolByName (r : ToolRegistry) (name : String) : Option Tool :=
  assocLookup r.toolInstances name

/-- `ToolRegistry.setupToolHandlers`: iterates `toolInstances.values()` in
insertion order, registers each handler with the server, and pushes each
tool's name onto `registeredTools`. -/
def ToolRegistry.setupToolHandlers (r : ToolRegistry) : ToolRegistry :=
  { r with registeredTools :=
      r.registeredTools ++ r.toolInstances.map (fun p => p.2.name) }

/-- `ToolRegistry.getRegisteredTools`: returns the list and leaves the
registry state unchanged (modelled as an explicit state-passing observer). -/
def ToolRegistry.getRegisteredTools (r : ToolRegistry) : List String × ToolRegistry :=
  (r.registeredTools, r)

/-- `ServerConfig.server` from `src/types/index.ts`. -/
structure ServerInfo where
  name : String
  version : String

/-- `ServerConfig.mcp` from `src/types/index.ts`. -/
structure McpSettings where
  maxResponseSize : Int
  defaultPageSize : Int

/-- `ServerConfig.logging` from `src/types/index.ts`. -/
structure LoggingSettings where
  level : String
  enableDebugConsole : Bool

/-- `ServerConfig` from `src/types/index.ts`. -/
structure ServerConfig where
  server : ServerInfo
  mcp : McpSettings
  logging : LoggingSettings

/-- `validateConfig` from `src/config/index.ts`: each failed check throws,
the surrounding `try`/`catch` logs and returns `false`; the fall-through
returns `true`. The throw-then-catch collapses to returning `false`, so the
function is total and never mutates its argument. -/
def validateConfig (config : ServerConfig) : Bool :=
  if config.mcp.maxResponseSize ≤ 0 then false
  else if config.mcp.defaultPageSize ≤ 0 then false
  else if !(["error", "warn", "info", "debug"].contains config.logging.level) then false
  else true

/-- Modelled from the spec: the dispatch layer (`src/server/mcp-server.ts` and
the protocol SDK's schema checking are not under the sources examined here;
only their callers are). Validation of one required object field against its
declared leaf schema: structural type check only. -/
def validateLeaf : SchemaNode → Json → Bool
  | .sString _, .str _ => true
  | .sString _, _ => false
  | .sObject _, _ => false

/-- Modelled from the spec: field-by-field structural validation of an object
payload against the declared field list; a failure reports a field-level
summary that names the offending field. -/
def validateFields (kvs : List (String × Json)) :
    List (String × SchemaNode) → Except String Unit
  | [] => .ok ()
  | (f, fs) :: rest =>
    match assocLookup kvs f with
    | none => .error (f ++ ": Required")
    | some v =>
      if validateLeaf fs v then validateFields kvs rest
      else .error (f ++ ": Invalid type")

/-- Modelled from the spec: validation of a raw payload against a capability's
declared input schema, performed before the capability is invoked. -/
def validateInput (schema : SchemaNode) (args : Json) : Except String Unit :=
  match schema, args with
  | .sObject fields, .obj kvs => validateFields kvs fields
  | .sObject _, _ => .error "Expected object"
  | .sString _, .str _ => .ok ()
  | .sString _, _ => .error "Expected string"

/-- One record handed to the logging collaborator. -/
structure LogEntry where
  level : String
  message : String
  stack : Option String

/-- A fault raised by a capability's `execute` (message plus optional stack). -/
structure Fault where
  message : String
  stack : Option String

/-- Modelled from the spec: the invocation wrapper (`BaseTool.handler` in
`src/tools/base/base-tool.ts`, not among the sources examined here). It runs
the raw `execute`; a normal completion passes the envelope through unchanged,
and a raised fault is caught, logged (message plus stack) through the logging
collaborator, and turned into a failure envelope with a sanitized generic
message and empty data. The wrapper is a total function: no fault propagates
past it. -/
def handlerWrap (exec : Json → Except Fault (MCPToolResponse Json))
    (args : Json) (log : List LogEntry) : MCPToolResponse Json × List LogEntry :=
  match exec args with
  | .ok r => (r, log)
  | .error f =>
    ({ success := false, message := "Tool execution failed", data := Json.obj [] },
      log ++ [⟨"error", f.message, f.stack⟩])

/-- Whether a message leaks a file path or a stack trace: path separators or
stack-frame line breaks. -/
def mentionsPathOrStack (s : String) : Bool :=
  s.data.any (fun c => c = '/' || c = '\\' || c = '\n')

/-- The typed execution of a tool on an already validated payload (the glue
that decodes the validated JSON into the tool's argument type, calls the
tool's `execute` from the source, and re-encodes the result as JSON). -/
def Tool.executeJson : Tool → Nat → Json → MCPToolResponse Json
  | .echoT t, _, j =>
    let m := match j with
      | .obj kvs =>
        match assocLookup kvs "message" with
        | some (.str s) => s
        | _ => ""
      | _ => ""
    let r := t.execute { message := m }
    { success := r.success, message := r.message
      data := Json.obj [("message", Json.str r.data.message)] }
  | .pingT t, now, _ =>
    let r := t.execute now ()
    { success := r.success, message := r.message
      data := Json.obj [("status", Json.str r.data.status),
                        ("timestamp", Json.str r.data.timestamp)] }

/-- Modelled from the spec: the dispatch entry point (the tool-call request
handler wired up by the server, not among the sources examined here). Looks
the capability up via `getToolByName`; an absent name yields the not-found
envelope without invoking anything; a validation failure yields the failure
envelope without invoking the capability; otherwise the capability runs. The
second component counts how many times a capability's `execute` was invoked
(the spy of the spec's testable properties). -/
def ToolRegistry.dispatch (r : ToolRegistry) (now : Nat) (name : String)
    (args : Json) : MCPToolResponse Json × Nat :=
  match r.getToolByName name with
  | none =>
    ({ success := false, message := "unknown capability: " ++ name,
       data := Json.obj [] }, 0)
  | some t =>
    match validateInput t.getInputSchema args with
    | .error m => ({ success := false, message := m, data := Json.obj [] }, 0)
    | .ok _ => (t.executeJson now args, 1)

/-- Two invocations of the same function on the same input (for the two-run
idempotence property). -/
def runTwice {α β : Type} (f : α → β) (x : α) : β × β := (f x, f x)

/-- A capability execution that always raises a fault whose message and stack
carry a file path and stack frame (used to exercise the wrapper). -/
def faultyExec : Json → Except Fault (MCPToolResponse Json) :=
  fun _ => .error ⟨"boom", some "at handler (/app/x.ts:1:1)"⟩

/-- `Map.get` after `Map.set`: the set key is found with the new value, every
other key is unaffected. -/
theorem assocLookup_assocSet {α : Type} (m : List (String × α)) (k : String)
    (v : α) (n : String) :
    assocLookup (assocSet m k v) n = if k = n then some v else assocLookup m n := by
  induction m with
  | nil => simp [assocSet, assocLookup]
  | cons hd tl ih =>
    obtain ⟨k', v'⟩ := hd
    by_cases hk : k' = k
    · subst hk
      simp [assocSet, assocLookup]
      split_ifs <;> simp [assocLookup]
    · simp [assocSet, assocLookup, hk, ih]
      split_ifs with h1 h2 <;> simp_all [assocLookup]

/-- Looking a name up after the registration loop finds the LAST tool in the
list with that name, and falls back to the prior map contents otherwise. -/
theorem assocLookup_registerList (ts : List Tool) (m : List (String × Tool))
    (n : String) :
    assocLookup (registerList m ts) n =
      (ts.reverse.find? (fun t => t.name == n)).orElse (fun _ => assocLookup m n) := by
  induction ts generalizing m with
  | nil => simp [registerList]
  | cons t ts ih =>
    have step : registerList m (t :: ts) = registerList (assocSet m t.name t) ts := rfl
    rw [step, ih]
    rw [List.reverse_cons, List.find?_append]
    cases hr : ts.reverse.find? (fun t => t.name == n) with
    | some u => simp [Option.orElse]
    | none =>
      simp [Option.orElse, List.find?, assocLookup_assocSet]
      by_cases he : t.name = n
      · simp [he]
      · have hb : (t.name == n) = false := by simp [he]
        simp [he, hb]

/-- A validation failure over an object payload always reports a message that
starts with the name of some required field of the schema. -/
theorem validateFields_error_field (kvs : List (String × Json)) :
    ∀ (fields : List (String × SchemaNode)) (m : String),
      validateFields kvs fields = Except.error m →
      ∃ f rest, f ∈ fields.map Prod.fst ∧ m = f ++ rest := by
  intro fields
  induction fields with
  | nil => intro m h; simp [validateFields] at h
  | cons p tl ih =>
    obtain ⟨f, fs⟩ := p
    intro m h
    cases hl : assocLookup kvs f with
    | none =>
      rw [validateFields, hl] at h
      exact ⟨f, ": Required", by simp, by injection h with h; exact h.symm⟩
    | some v =>
      simp only [validateFields, hl] at h
      by_cases hv : validateLeaf fs v = true
      · rw [if_pos hv] at h
        obtain ⟨g, rest, hg, hm⟩ := ih m h
        exact ⟨g, rest, by simp; right; simpa using hg, hm⟩
      · rw [if_neg hv] at h
        exact ⟨f, ": Invalid type", by simp, by injection h with h; exact h.symm⟩

/-- C1 (counterexample): a capability list whose two entries both declare the
name "echo" does NOT make registry initialization fail, and a name-to-instance
mapping IS produced: the registration loop returns the one-entry map for
"echo" (its type has no failure outcome at all), and the lookup succeeds.
This refutes the claim that such a list aborts startup and registers neither. -/
theorem c1_duplicate_name_counterexample :
    registerList [] [Tool.echoT ⟨⟨⟩⟩, Tool.echoT ⟨⟨⟩⟩] = [("echo", Tool.echoT ⟨⟨⟩⟩)] ∧
    assocLookup (registerList [] [Tool.echoT ⟨⟨⟩⟩, Tool.echoT ⟨⟨⟩⟩]) "echo" =
      some (Tool.echoT ⟨⟨⟩⟩) := by
  constructor <;> rfl

/-- C1 (amended): registry initialization never fails on a duplicate-name
list; each `Map.set` silently overwrites, so for every name the produced
mapping holds the last capability in the list declaring that name. -/
theorem c1_amended_duplicate_name_overwrites (ts : List Tool) (n : String) :
    assocLookup (registerList [] ts) n = ts.reverse.find? (fun t => t.name == n) := by
  rw [assocLookup_registerList]
  cases ts.reverse.find? (fun t => t.name == n) <;> simp [Option.orElse, assocLookup]

/-- C2: for every capability execution and every input, if the execution
raises a fault, the invocation wrapper returns a `success: false` envelope
whose message contains no file path or stack trace, with empty data; the
fault is appended to the log exactly once; and (the wrapper being a total
function into envelopes) no fault propagates past it. -/
theorem c2_wrapper_normalizes_faults
    (exec : Json → Except Fault (MCPToolResponse Json)) (args : Json)
    (log : List LogEntry) (f : Fault) (h : exec args = Except.error f) :
    (handlerWrap exec args log).1.success = false ∧
    mentionsPathOrStack (handlerWrap exec args log).1.message = false ∧
    (handlerWrap exec args log).1.data = Json.obj [] ∧
    (handlerWrap exec args log).2 = log ++ [⟨"error", f.message, f.stack⟩] := by
  refine ⟨?_, ?_, ?_, ?_⟩ <;> simp [handlerWrap, h, mentionsPathOrStack]

/-- C2 (witness): the wrapper applied to an execution that raises a fault
carrying a path-laden message and stack. -/
theorem c2_wrapper_normalizes_faults_witness :
    faultyExec (Json.obj []) = Except.error ⟨"boom", some "at handler (/app/x.ts:1:1)"⟩ ∧
    ((handlerWrap faultyExec (Json.obj []) []).1.success = false ∧
     mentionsPathOrStack (handlerWrap faultyExec (Json.obj []) []).1.message = false ∧
     (handlerWrap faultyExec (Json.obj []) []).1.data = Json.obj [] ∧
     (handlerWrap faultyExec (Json.obj []) []).2 =
       [] ++ [⟨"error", "boom", some "at handler (/app/x.ts:1:1)"⟩]) :=
  ⟨rfl, c2_wrapper_normalizes_faults faultyExec (Json.obj []) []
    ⟨"boom", some "at handler (/app/x.ts:1:1)"⟩ rfl⟩

/-- C3: for every name absent from the registry (the lookup, which is total,
returns the `none` sentinel) and every payload, dispatch returns a
`success: false` envelope with message `"unknown capability: <name>"` and no
capability execution is invoked (the invocation counter stays 0). -/
theorem c3_unknown_capability_not_found (r : ToolRegistry) (n : String)
    (args : Json) (now : Nat) (h : r.getToolByName n = none) :
    (r.dispatch now n args).1 =
      { success := false, message := "unknown capability: " ++ n,
        data := Json.obj [] } ∧
    (r.dispatch now n args).2 = 0 := by
  constructor <;> simp [ToolRegistry.dispatch, h]

/-- C3 (witness): dispatching "nonexistent" against the initialized registry. -/
theorem c3_unknown_capability_not_found_witness :
    ToolRegistry.empty.initRegistry.getToolByName "nonexistent" = none ∧
    ((ToolRegistry.empty.initRegistry.dispatch 0 "nonexistent" (Json.obj [])).1 =
      { success := false, message := "unknown capability: " ++ "nonexistent",
        data := Json.obj [] } ∧
     (ToolRegistry.empty.initRegistry.dispatch 0 "nonexistent" (Json.obj [])).2 = 0) :=
  ⟨rfl, c3_unknown_capability_not_found ToolRegistry.empty.initRegistry
    "nonexistent" (Json.obj []) 0 rfl⟩

/-- C4: for every registered capability and every object payload that fails
validation against its declared input schema, dispatch returns a
`success: false` envelope whose message starts with the name of a required
field of that schema, and the capability's execution is never invoked. -/
theorem c4_invalid_input_rejected_without_invocation (r : ToolRegistry)
    (n : String) (t : Tool) (kvs : List (String × Json)) (now : Nat) (m : String)
    (h1 : r.getToolByName n = some t)
    (h2 : validateInput t.getInputSchema (Json.obj kvs) = Except.error m) :
    (r.dispatch now n (Json.obj kvs)).1 =
      { success := false, message := m, data := Json.obj [] } ∧
    (r.dispatch now n (Json.obj kvs)).2 = 0 ∧
    ∃ f rest, f ∈ t.getInputSchema.fieldNames ∧ m = f ++ rest := by
  refine ⟨?_, ?_, ?_⟩
  · simp [ToolRegistry.dispatch, h1, h2]
  · simp [ToolRegistry.dispatch, h1, h2]
  · cases t with
    | echoT e =>
      have h3 : validateFields kvs [("message", .sString "The message to echo back")] =
          Except.error m := by
        simpa [validateInput, Tool.getInputSchema, EchoTool.getInputSchema] using h2
      have := validateFields_error_field kvs _ m h3
      simpa [Tool.getInputSchema, EchoTool.getInputSchema, SchemaNode.fieldNames] using this
    | pingT p =>
      exact absurd h2 (by simp [validateInput, Tool.getInputSchema,
        PingTool.getInputSchema, validateFields])

/-- C4 (witness): dispatching "echo" with the empty object `{}` (missing the
required field "message") yields a failure envelope whose message names
"message", without invoking the tool. -/
theorem c4_invalid_input_rejected_without_invocation_witness :
    ToolRegistry.empty.initRegistry.getToolByName "echo" = some (Tool.echoT ⟨⟨⟩⟩) ∧
    validateInput (Tool.echoT ⟨⟨⟩⟩).getInputSchema (Json.obj []) =
      Except.error "message: Required" ∧
    ((ToolRegistry.empty.initRegistry.dispatch 0 "echo" (Json.obj [])).1 =
      { success := false, message := "message: Required", data := Json.obj [] } ∧
     (ToolRegistry.empty.initRegistry.dispatch 0 "echo" (Json.obj [])).2 = 0 ∧
     ∃ f rest, f ∈ (Tool.echoT ⟨⟨⟩⟩).getInputSchema.fieldNames ∧
       "message: Required" = f ++ rest) :=
  ⟨rfl, rfl, c4_invalid_input_rejected_without_invocation
    ToolRegistry.empty.initRegistry "echo" (Tool.echoT ⟨⟨⟩⟩) [] 0
    "message: Required" rfl rfl⟩

/-- C5: for every string `m`, echo's execution on `{message: m}` returns
exactly `{success: true, message: "Message echoed successfully",
data: {message: m}}` — the input message comes back unchanged. -/
theorem c5_echo_returns_input_unchanged (t : EchoTool) (m : String) :
    t.execute { message := m } =
      { success := true, message := "Message echoed successfully",
        data := { message := m } } := rfl

/-- C6: every invocation of ping's execution with the empty argument object,
sampling the clock at instant `now` inside the call window
`[start, ret]`, returns `{success: true, message: "Server is responding",
data: {status: "ok", timestamp: toISOString now}}`, and that timestamp is the
ISO 8601 rendering of an instant no earlier than the call's start and no
later than its return. -/
theorem c6_ping_ok_with_in_window_timestamp (t : PingTool)
    (start now ret : Nat) (h1 : start ≤ now) (h2 : now ≤ ret) :
    t.execute now () =
      { success := true, message := "Server is responding",
        data := { status := "ok", timestamp := toISOString now } } ∧
    ∃ τ, start ≤ τ ∧ τ ≤ ret ∧ (t.execute now ()).data.timestamp = toISOString τ :=
  ⟨rfl, now, h1, h2, rfl⟩

/-- C6 (witness): a concrete invocation window around the instant
1700000000000 ms, whose ISO 8601 rendering the model computes exactly as
JavaScript does. -/
theorem c6_ping_ok_with_in_window_timestamp_witness :
    (0 : Nat) ≤ 1700000000000 ∧ (1700000000000 : Nat) ≤ 1800000000000 ∧
    toISOString 1700000000000 = "2023-11-14T22:13:20.000Z" ∧
    (PingTool.execute ⟨⟨⟩⟩ 1700000000000 () =
      { success := true, message := "Server is responding",
        data := { status := "ok", timestamp := toISOString 1700000000000 } } ∧
     ∃ τ, 0 ≤ τ ∧ τ ≤ 1800000000000 ∧
       (PingTool.execute ⟨⟨⟩⟩ 1700000000000 ()).data.timestamp = toISOString τ) :=
  ⟨by decide, by decide, by decide,
    c6_ping_ok_with_in_window_timestamp ⟨⟨⟩⟩ 0 1700000000000 1800000000000
      (by decide) (by decide)⟩

/-- C7: after the startup sequence (initialization then handler setup),
listing the registered capabilities returns them in registration order —
"echo" first, then "ping", the order of the fixed list — and calling the
listing again on the state it returns yields the same stable sequence. -/
theorem c7_listing_stable_registration_order :
    ((ToolRegistry.empty.initRegistry.setupToolHandlers).getRegisteredTools).1 =
      ["echo", "ping"] ∧
    (((ToolRegistry.empty.initRegistry.setupToolHandlers).getRegisteredTools).2.getRegisteredTools).1 =
      ["echo", "ping"] := ⟨rfl, rfl⟩

/-- C8: invoking echo's execution twice with the same input yields two equal
envelopes, and the invocation wrapper called twice on the same input and log
yields two equal outcomes (two-run idempotence over pure handlers). -/
theorem c8_echo_and_wrapper_two_run_idempotent (t : EchoTool) (a : EchoArgs)
    (exec : Json → Except Fault (MCPToolResponse Json)) (args : Json)
    (log : List LogEntry) :
    (runTwice t.execute a).1 = (runTwice t.execute a).2 ∧
    (runTwice (handlerWrap exec args) log).1 = (runTwice (handlerWrap exec args) log).2 :=
  ⟨rfl, rfl⟩

/-- C9: after initialization alone the registered-tools list is empty even
though lookups for "echo" and "ping" already succeed; initialization never
changes the list, only handler setup appends to it (every tool's name, in
order, with no deduplication), so a second setup call appends all names
again. -/
theorem c9_registered_list_only_grows_in_setup :
    (ToolRegistry.empty.initRegistry.getRegisteredTools).1 = [] ∧
    (ToolRegistry.empty.initRegistry.getToolByName "echo").isSome = true ∧
    (ToolRegistry.empty.initRegistry.getToolByName "ping").isSome = true ∧
    (∀ r : ToolRegistry, (r.initRegistry.getRegisteredTools).1 = (r.getRegisteredTools).1) ∧
    (∀ r : ToolRegistry, (r.setupToolHandlers.getRegisteredTools).1 =
      (r.getRegisteredTools).1 ++ r.toolInstances.map (fun p => p.2.name)) ∧
    (ToolRegistry.empty.initRegistry.setupToolHandlers.getRegisteredTools).1 =
      ["echo", "ping"] ∧
    (ToolRegistry.empty.initRegistry.setupToolHandlers.setupToolHandlers.getRegisteredTools).1 =
      ["echo", "ping", "echo", "ping"] :=
  ⟨rfl, rfl, rfl, fun _ => rfl, fun _ => rfl, rfl, rfl⟩

/-- C10: for every configuration value, validation is a total boolean check
(the source catches its own throws) returning `true` exactly when
`maxResponseSize` and `defaultPageSize` are positive and the log level is one
of "error", "warn", "info", "debug"; being a pure function it leaves the
configuration unchanged. -/
theorem c10_validateConfig_iff (c : ServerConfig) :
    validateConfig c = true ↔
      (0 < c.mcp.maxResponseSize ∧ 0 < c.mcp.defaultPageSize ∧
        (c.logging.level = "error" ∨ c.logging.level = "warn" ∨
         c.logging.level = "info" ∨ c.logging.level = "debug")) := by
  unfold validateConfig
  split_ifs with h1 h2 h3
  · constructor
    · intro h; exact absurd h (by simp)
    · rintro ⟨ha, -⟩; omega
  · constructor
    · intro h; exact absurd h (by simp)
    · rintro ⟨-, hb, -⟩; omega
  · constructor
    · intro h; exact absurd h (by simp)
    · rintro ⟨-, -, hc⟩
      simp only [Bool.not_eq_true'] at h3
      rcases hc with h | h | h | h <;> simp [h, List.contains] at h3
  · constructor
    · intro _
      refine ⟨by omega, by omega, ?_⟩
      simp only [Bool.not_eq_true', Bool.not_eq_false] at h3
      have := List.mem_of_elem_eq_true h3
      simpa using this
    · intro _; rfl
